import Mathlib

/-! edge-extension-downloader: the CRX unwrapper and its driver

A shallow embedding of `main.go`.  Go values are rendered as follows.

* `[]byte` is `List Byte` with `Byte = Fin 256`; `len` is `List.length`.  A Go slice
  length is an `int`, which is 64 bits wide on the usual targets, so no bound on the
  length of a buffer is assumed.
* `uint32` values are natural numbers reduced `% 2 ^ 32` where the source computes in
  32-bit arithmetic.
* An index or slice expression that is out of range raises a run-time panic in Go.  The
  type `Go α` records that: a computation either returns a value or panics.
* A function returning `([]byte, error)` returns a pair `List Byte × Option String`:
  the `nil` slice is `[]`, the `nil` error is `none`, and `errors.New msg` is `some msg`.
* Effects of the driver (logging, HTTP requests, file writes) are recorded as a trace
  of `Event`s.
-/

namespace EdgeExtensionDownloader

/-! ## Go run-time model -/

/-- A Go `byte`. -/
abbrev Byte := Fin 256

/-- The run-time panics an index or slice expression can raise. -/
inductive RuntimePanic
  | indexOutOfRange
  | sliceBoundsOutOfRange
  deriving DecidableEq, Repr

/-- Outcome of evaluating Go code: a returned value or a run-time panic. -/
inductive Go (α : Type)
  | ret (a : α)
  | panic (p : RuntimePanic)
  deriving DecidableEq, Repr

/-- Sequencing of Go evaluation: a panic aborts everything that follows. -/
def Go.bind {α β : Type} (x : Go α) (f : α → Go β) : Go β :=
  match x with
  | .ret a => f a
  | .panic p => .panic p

instance : Monad Go where
  pure := Go.ret
  bind := Go.bind

/-- The index expression `buf[i]`: panics when `i` is not below `len(buf)`. -/
def index (buf : List Byte) (i : Nat) : Go Byte :=
  match buf.get? i with
  | some b => .ret b
  | none => .panic .indexOutOfRange

/-- The slice expression `buf[low:]`: panics when `low` exceeds `len(buf)`. -/
def sliceFrom (buf : List Byte) (low : Nat) : Go (List Byte) :=
  if low ≤ buf.length then .ret (buf.drop low) else .panic .sliceBoundsOutOfRange

/-- The short-circuit operator `||`: the right operand is evaluated only when the left
one is false. -/
def orElse (x y : Go Bool) : Go Bool := do
  if (← x) then pure true else y

/-- The comparison `buf[i] != v`. -/
def indexNe (buf : List Byte) (i : Nat) (v : Byte) : Go Bool := do
  let b ← index buf i
  pure (b != v)

/-- The library function `binary.LittleEndian.Uint32`:
`_ = b[3]; return uint32(b[0]) | uint32(b[1])<<8 | uint32(b[2])<<16 | uint32(b[3])<<24`.
The shifted bytes fit in 32 bits, so no reduction is needed. -/
def Uint32 (b : List Byte) : Go Nat := do
  let _ ← index b 3
  let b0 ← index b 0
  let b1 ← index b 1
  let b2 ← index b 2
  let b3 ← index b 3
  pure (b0.val ||| (b1.val <<< 8) ||| (b2.val <<< 16) ||| (b3.val <<< 24))

/-! ## `crx2zip` -/

/-- The function `crx2zip` of `main.go`. -/
def crx2zip (buf : List Byte) : Go (List Byte × Option String) := do
  -- 43 72 32 34 (Cr24)
  if (← orElse (orElse (orElse (indexNe buf 0 67) (indexNe buf 1 114)) (indexNe buf 2 50))
      (indexNe buf 3 52)) then
    return ([], some "invalid header does not start with Cr24")
  -- 03 00 00 00
  if (← orElse (orElse (orElse (indexNe buf 4 3) (indexNe buf 5 0)) (indexNe buf 6 0))
      (indexNe buf 7 0)) then
    return ([], some "unexpected crx format version number")
  -- header size
  let header ← Uint32 (← sliceFrom buf 8)
  -- Magic number (4), CRX format version (4), lengths (4); the sum is a uint32
  let zipStartOffset := (4 + 4 + 4 + header) % 2 ^ 32
  return (← sliceFrom buf zipStartOffset, none)

/-- Little-endian value of four bytes, as arithmetic. -/
def leUint32 (b0 b1 b2 b3 : Byte) : Nat :=
  b0.val + 256 * b1.val + 65536 * b2.val + 16777216 * b3.val

/-- The header length field of a container: the little-endian value of bytes 8..11. -/
def headerLength (buf : List Byte) : Nat :=
  leUint32 (buf.getD 8 0) (buf.getD 9 0) (buf.getD 10 0) (buf.getD 11 0)

/-- The spec's `TruncatedInput` failure, read on the result of `crx2zip`: an error value
is returned without a payload, and it is neither of the two other error kinds. -/
def IsTruncatedInput (r : Go (List Byte × Option String)) : Prop :=
  ∃ msg, r = .ret ([], some msg) ∧ msg ≠ "invalid header does not start with Cr24" ∧
    msg ≠ "unexpected crx format version number"

/-- A container of exactly `2 ^ 32` bytes: magic number, version 3, the header length
field `F4 FF FF FF` (that is `2 ^ 32 - 12`), then `2 ^ 32 - 12` zero bytes. -/
def hugeContainer : List Byte :=
  67 :: 114 :: 50 :: 52 :: 3 :: 0 :: 0 :: 0 :: 244 :: 255 :: 255 :: 255 ::
    List.replicate 4294967284 0

/-! ## Strings and the identifier pattern

A Go `string` is rendered as a Lean `String`.  The pattern only matches the ASCII letters
`a` to `z`, each a rune of one byte, so matching on runes and on bytes agree. -/

/-- A regular expression of the shape `[lo-hi]{count}`: one character class, repeated
an exact number of times.  This is the only shape the program compiles. -/
structure Regexp where
  lo : Char
  hi : Char
  count : Nat

/-- The constant `chromeWebStoreURL` of `main.go`. -/
def chromeWebStoreURL : String :=
  "https://clients2.google.com/service/update2/crx?response=redirect"

/-- The constant `reExtendionID` of `main.go`, the pattern `[a-z]{32}`. -/
def reExtendionID : Regexp := ⟨'a', 'z', 32⟩

/-- Membership of a character in the class of the pattern. -/
def Regexp.inClass (r : Regexp) (c : Char) : Bool :=
  decide (r.lo ≤ c) && decide (c ≤ r.hi)

/-- A match of the pattern anchored at the start of `s`. -/
def Regexp.matchPrefix (r : Regexp) (s : List Char) : Option (List Char) :=
  if (s.take r.count).length = r.count ∧ (s.take r.count).all r.inClass = true then
    some (s.take r.count)
  else none

/-- The leftmost match of the pattern in `s`: start positions are tried from left to
right. -/
def Regexp.find (r : Regexp) : List Char → Option (List Char)
  | [] => r.matchPrefix []
  | c :: cs =>
    match r.matchPrefix (c :: cs) with
    | some m => some m
    | none => r.find cs

/-- The library method `(*Regexp).FindStringSubmatch` for a pattern without groups: `nil`
when there is no match, else the one-element slice holding the leftmost match. -/
def Regexp.FindStringSubmatch (r : Regexp) (s : String) : List String :=
  match r.find s.data with
  | some m => [String.mk m]
  | none => []

/-! ## Effects -/

/-- The observable effects of the program, in the order they happen. -/
inductive Event
  /-- Text written by `fmt.Print`. -/
  | print (text : String)
  /-- A line written by `log.Printf`. -/
  | log (text : String)
  /-- A request issued by `http.Get`. -/
  | httpGet (url : String)
  /-- A call of `WriteBytesFile`; its result is ignored by the caller. -/
  | writeFile (filename : String) (content : List Byte)
  deriving DecidableEq, Repr

/-- What the network answers to one `http.Get` followed by reading the body. -/
inductive HttpOutcome
  /-- `http.Get` itself returned an error. -/
  | getError (msg : String)
  /-- A response arrived; reading its body gave `body` and possibly an error. -/
  | response (statusCode : Nat) (body : List Byte) (readError : Option String)

/-- The network: the outcome of the request with a given sequence number and URL. -/
abbrev Network := Nat → String → HttpOutcome

/-- The function `downloadFile` of `main.go`, on the outcome of its request. -/
def downloadFile (outcome : HttpOutcome) : List Byte × Option String :=
  match outcome with
  | .getError msg => ([], some msg)
  | .response statusCode body readError =>
    if statusCode ≠ 200 then ([], some "http download faile, status code != 200")
    else (body, readError)

/-- The URL that `createDownloadURL` builds for an extension ID. -/
def downloadURL (extensionID : String) : String :=
  let productID := "chromiumcrx"
  let productChannel := "unknown"
  let productVersion := "9999.0.9999.0"
  let os := "win"
  let arch := "x86-64"
  let url := chromeWebStoreURL
  let url := url ++ ("&os=" ++ os)
  let url := url ++ ("&arch=" ++ arch)
  let url := url ++ ("&nacl_arch=" ++ arch)
  let url := url ++ ("&prod=" ++ productID)
  let url := url ++ ("&prodchannel=" ++ productChannel)
  let url := url ++ ("&prodversion=" ++ productVersion)
  let url := url ++ ("&acceptformat=" ++ "crx2,crx3")
  let url := url ++ ("&x=id%3D" ++ extensionID)
  url ++ "%26uc"

/-- Puts the events of one iteration in front of the outcome of the remaining ones. -/
def andThen (events : List Event) (more : List Event × Option RuntimePanic) :
    List Event × Option RuntimePanic :=
  (events ++ more.1, more.2)

/-- The function `createDownloadURL` of `main.go`.  `Destination` is
`GlobalArguments.Destination` and `n` counts the requests issued so far.  The result is
the trace of effects and the panic that ended the run, if any. -/
def createDownloadURL (net : Network) (Destination : String) :
    List String → Nat → List Event × Option RuntimePanic
  | [], _ => ([], none)
  | ext :: extensionList, n =>
    let processing := Event.log ("Processing " ++ ext ++ "\n")
    match reExtendionID.FindStringSubmatch ext with
    | [] => andThen [processing] (createDownloadURL net Destination extensionList n)
    | extensionID :: _ =>
      let url := downloadURL extensionID
      let (b, err) := downloadFile (net n url)
      if err.isSome then
        andThen [processing, .httpGet url]
          (createDownloadURL net Destination extensionList (n + 1))
      else
        let dest := Destination ++ "/" ++ extensionID
        match crx2zip b with
        | .panic p => ([processing, .httpGet url, .writeFile (dest ++ ".crx") b], some p)
        | .ret (zipBytes, err) =>
          if err.isSome then
            andThen [processing, .httpGet url, .writeFile (dest ++ ".crx") b]
              (createDownloadURL net Destination extensionList (n + 1))
          else
            andThen [processing, .httpGet url, .writeFile (dest ++ ".crx") b,
                .writeFile (dest ++ ".zip") zipBytes]
              (createDownloadURL net Destination extensionList (n + 1))

/-! ## `readInput` and `main` -/

/-- The type `GlobalArgumentsBody` of `main.go`. -/
structure GlobalArgumentsBody where
  Id : List String
  Destination : String

/-- The loop of `readInput`: `stdin` holds the lines the scanner yields, `lines` the
slice built so far. -/
def readInputLoop : List String → List String → List String
  | [], lines => lines
  | line :: more, lines =>
    if line.utf8ByteSize = 0 then lines else readInputLoop more (lines ++ [line])

/-- The function `readInput` of `main.go`: the prompt it prints and the lines it
returns (its error result is always `nil`). -/
def readInput (stdin : List String) : List Event × List String :=
  ([.print "\nEnter list of extensions' URLs/IDs, then hit enter. Lines are separated with \\n:  \n\n"],
    readInputLoop stdin [])

/-- The function `main` of `main.go`.  `GlobalArguments` is the value `arg.MustParse`
stored from the command line `osArgs`; without arguments its `Id` is empty. -/
def main (osArgs : List String) (GlobalArguments : GlobalArgumentsBody) (stdin : List String)
    (net : Network) : List Event × Option RuntimePanic :=
  let prompt := if osArgs.length ≤ 1 then (readInput stdin).1 else []
  andThen prompt (createDownloadURL net GlobalArguments.Destination GlobalArguments.Id 0)

/-! ## The identifier pattern, as the specification words it -/

/-- A run: exactly 32 characters, each a letter `a` to `z`. -/
def IsRun (run : List Char) : Prop :=
  run.length = 32 ∧ ∀ c ∈ run, 'a' ≤ c ∧ c ≤ 'z'

/-- The string contains a run of 32 consecutive letters `a` to `z`. -/
def HasRun (s : List Char) : Prop :=
  ∃ before run after, s = before ++ run ++ after ∧ IsRun run

/-- The run `run` occurs in `s` and no run of `s` starts further left. -/
def IsLeftmostRun (s run : List Char) : Prop :=
  ∃ before after, s = before ++ run ++ after ∧ IsRun run ∧
    ∀ before2 run2 after2, s = before2 ++ run2 ++ after2 → IsRun run2 →
      before.length ≤ before2.length

/-! ## Concrete inputs -/

/-- A well-formed container: magic number, version 3, an empty header, payload `50 4B`. -/
def smallContainer : List Byte := [67, 114, 50, 52, 3, 0, 0, 0, 0, 0, 0, 0, 80, 75]

/-- A network that answers the first request with status 200 and an empty body, and
every later request with a well-formed container. -/
def emptyBodyNet : Network := fun n _ =>
  if n = 0 then .response 200 [] none else .response 200 smallContainer none

/-- A network that answers every request with a well-formed container. -/
def okNet : Network := fun _ _ => .response 200 smallContainer none

/-! ## Evaluation of `crx2zip` on small buffers -/

example : crx2zip [67, 114, 50, 52, 3, 0, 0, 0, 0, 0, 0, 0, 80, 75, 3, 4]
    = .ret ([80, 75, 3, 4], none) := by decide
example : crx2zip [] = .panic .indexOutOfRange := by decide
example : crx2zip [0] = .ret ([], some "invalid header does not start with Cr24") := by decide
example : crx2zip [67] = .panic .indexOutOfRange := by decide
example : crx2zip [67, 114, 50, 52, 3, 0, 0, 0, 4, 0, 0, 0] = .panic .sliceBoundsOutOfRange := by
  decide
example : crx2zip [67, 114, 50, 52, 3, 0, 0, 0, 4, 0] = .panic .indexOutOfRange := by
  decide
example : crx2zip [67, 114, 50, 52, 3, 0, 0, 0, 255, 255, 255, 255, 9]
    = .ret ([255, 9], none) := by decide

/-! ## Helper lemmas -/

theorem or_shift_eq_leUint32 (b0 b1 b2 b3 : Byte) :
    b0.val ||| (b1.val <<< 8) ||| (b2.val <<< 16) ||| (b3.val <<< 24) = leUint32 b0 b1 b2 b3 := by
  have h0 := b0.isLt
  have h1 := b1.isLt
  have h2 := b2.isLt
  have e1 : b0.val ||| (b1.val <<< 8) = 2 ^ 8 * b1.val + b0.val := by
    rw [Nat.shiftLeft_eq, Nat.lor_comm, Nat.mul_comm]
    exact (Nat.mul_add_lt_is_or (by omega) b1.val).symm
  have e2 : (2 ^ 8 * b1.val + b0.val) ||| (b2.val <<< 16) = 2 ^ 16 * b2.val + (2 ^ 8 * b1.val + b0.val) := by
    rw [Nat.shiftLeft_eq, Nat.lor_comm, Nat.mul_comm]
    exact (Nat.mul_add_lt_is_or (by omega) b2.val).symm
  have e3 : (2 ^ 16 * b2.val + (2 ^ 8 * b1.val + b0.val)) ||| (b3.val <<< 24)
      = 2 ^ 24 * b3.val + (2 ^ 16 * b2.val + (2 ^ 8 * b1.val + b0.val)) := by
    rw [Nat.shiftLeft_eq, Nat.lor_comm, Nat.mul_comm]
    exact (Nat.mul_add_lt_is_or (by omega) b3.val).symm
  rw [e1, e2, e3]
  unfold leUint32
  omega

theorem leUint32_lt (b0 b1 b2 b3 : Byte) : leUint32 b0 b1 b2 b3 < 2 ^ 32 := by
  have h0 := b0.isLt
  have h1 := b1.isLt
  have h2 := b2.isLt
  have h3 := b3.isLt
  unfold leUint32
  omega

theorem exists_cons4 (buf : List Byte) (h : 4 ≤ buf.length) :
    ∃ b0 b1 b2 b3 rest, buf = b0 :: b1 :: b2 :: b3 :: rest := by
  match buf, h with
  | b0 :: b1 :: b2 :: b3 :: rest, _ => exact ⟨b0, b1, b2, b3, rest, rfl⟩

theorem exists_cons8 (buf : List Byte) (h : 8 ≤ buf.length) :
    ∃ b0 b1 b2 b3 b4 b5 b6 b7 rest,
      buf = b0 :: b1 :: b2 :: b3 :: b4 :: b5 :: b6 :: b7 :: rest := by
  obtain ⟨b0, b1, b2, b3, r, rfl⟩ := exists_cons4 buf (by omega)
  obtain ⟨b4, b5, b6, b7, rest, rfl⟩ := exists_cons4 r (by simp at h; omega)
  exact ⟨b0, b1, b2, b3, b4, b5, b6, b7, rest, rfl⟩

theorem exists_cons12 (buf : List Byte) (h : 12 ≤ buf.length) :
    ∃ b0 b1 b2 b3 b4 b5 b6 b7 b8 b9 b10 b11 rest,
      buf = b0 :: b1 :: b2 :: b3 :: b4 :: b5 :: b6 :: b7 :: b8 :: b9 :: b10 :: b11 :: rest := by
  obtain ⟨b0, b1, b2, b3, b4, b5, b6, b7, r, rfl⟩ := exists_cons8 buf (by omega)
  obtain ⟨b8, b9, b10, b11, rest, rfl⟩ := exists_cons4 r (by simp at h; omega)
  exact ⟨b0, b1, b2, b3, b4, b5, b6, b7, b8, b9, b10, b11, rest, rfl⟩

/-- Closed form of `crx2zip` on a buffer that carries the magic number and version 3 and
is long enough to hold the length field. -/
theorem crx2zip_of_header (b8 b9 b10 b11 : Byte) (rest : List Byte) :
    crx2zip (67 :: 114 :: 50 :: 52 :: 3 :: 0 :: 0 :: 0 :: b8 :: b9 :: b10 :: b11 :: rest) =
      if (12 + leUint32 b8 b9 b10 b11) % 2 ^ 32 ≤ rest.length + 12 then
        .ret ((67 :: 114 :: 50 :: 52 :: 3 :: 0 :: 0 :: 0 :: b8 :: b9 :: b10 :: b11 :: rest).drop
          ((12 + leUint32 b8 b9 b10 b11) % 2 ^ 32), none)
      else .panic .sliceBoundsOutOfRange := by
  simp only [crx2zip, orElse, indexNe, index, Uint32, sliceFrom, bind, Go.bind, pure]
  simp only [List.get?_cons_zero, List.get?_cons_succ, List.length_cons, or_shift_eq_leUint32]
  by_cases hc : (12 + leUint32 b8 b9 b10 b11) % 2 ^ 32 ≤ rest.length + 12
  · rw [if_pos hc]
    have hc2 : (12 + leUint32 b8 b9 b10 b11) % 4294967296
        ≤ rest.length + 1 + 1 + 1 + 1 + 1 + 1 + 1 + 1 + 1 + 1 + 1 + 1 := hc
    simp
    rw [if_pos hc2]
  · rw [if_neg hc]
    have hc2 : ¬ (12 + leUint32 b8 b9 b10 b11) % 4294967296
        ≤ rest.length + 1 + 1 + 1 + 1 + 1 + 1 + 1 + 1 + 1 + 1 + 1 + 1 := hc
    simp
    rw [if_neg hc2]

/-- Away from the 32-bit overflow `crx2zip` returns the payload: for every buffer that
starts with the magic number `43 72 32 34` and version `03 00 00 00`, whose header length
`h` (little-endian, at offset 8) satisfies `12 + h ≤ len(buf)` and `12 + h < 2 ^ 32`, the
result is the nil error and exactly the suffix `buf[12+h:]`. -/
theorem crx2zip_payload (buf : List Byte)
    (hmagic : buf.take 4 = [67, 114, 50, 52]) (hversion : (buf.drop 4).take 4 = [3, 0, 0, 0])
    (hlen : 12 + headerLength buf ≤ buf.length) (hfit : 12 + headerLength buf < 2 ^ 32) :
    crx2zip buf = .ret (buf.drop (12 + headerLength buf), none) := by
  obtain ⟨b0, b1, b2, b3, b4, b5, b6, b7, b8, b9, b10, b11, rest, rfl⟩ :=
    exists_cons12 buf (by omega)
  simp at hmagic hversion
  obtain ⟨rfl, rfl, rfl, rfl⟩ := hmagic
  obtain ⟨rfl, rfl, rfl, rfl⟩ := hversion
  simp only [headerLength, List.getD_cons_succ, List.getD_cons_zero, List.length_cons] at hlen hfit ⊢
  rw [crx2zip_of_header, Nat.mod_eq_of_lt hfit, if_pos (by omega)]

theorem headerLength_cons12 (b0 b1 b2 b3 b4 b5 b6 b7 b8 b9 b10 b11 : Byte) (rest : List Byte) :
    headerLength (b0 :: b1 :: b2 :: b3 :: b4 :: b5 :: b6 :: b7 :: b8 :: b9 :: b10 :: b11 :: rest)
      = leUint32 b8 b9 b10 b11 := rfl

theorem headerLength_hugeContainer : headerLength hugeContainer = 4294967284 := by
  unfold hugeContainer
  rw [headerLength_cons12]
  rfl

theorem length_cons12 (b0 b1 b2 b3 b4 b5 b6 b7 b8 b9 b10 b11 : Byte) (rest : List Byte) :
    (b0 :: b1 :: b2 :: b3 :: b4 :: b5 :: b6 :: b7 :: b8 :: b9 :: b10 :: b11 :: rest).length
      = rest.length + 12 := rfl

theorem length_hugeContainer : hugeContainer.length = 4294967296 := by
  unfold hugeContainer
  rw [length_cons12, List.length_replicate]

theorem crx2zip_hugeContainer : crx2zip hugeContainer = .ret (hugeContainer, none) := by
  unfold hugeContainer
  rw [crx2zip_of_header]
  have h : (12 + leUint32 244 255 255 255) % 2 ^ 32 = 0 := rfl
  rw [h, if_pos (Nat.zero_le _), List.drop_zero]

/-- C1, failing input: `hugeContainer` has the magic number, version 3 and a header
length `h = 2 ^ 32 - 12` with `12 + h ≤ len`.  The 32-bit sum `4 + 4 + 4 + header` wraps
to 0, so `crx2zip` returns the whole buffer, magic number and header included, and not
the suffix `buf[12+h:]` (which is empty here). -/
theorem crx2zip_payload_fails_on_hugeContainer :
    hugeContainer.take 4 = [67, 114, 50, 52] ∧ (hugeContainer.drop 4).take 4 = [3, 0, 0, 0] ∧
    12 + headerLength hugeContainer ≤ hugeContainer.length ∧
    crx2zip hugeContainer = .ret (hugeContainer, none) ∧
    crx2zip hugeContainer ≠
      .ret (hugeContainer.drop (12 + headerLength hugeContainer), none) := by
  refine ⟨rfl, rfl, ?_, crx2zip_hugeContainer, ?_⟩
  · rw [headerLength_hugeContainer, length_hugeContainer]
  · rw [crx2zip_hugeContainer, headerLength_hugeContainer,
      List.drop_eq_nil_of_le (by rw [length_hugeContainer])]
    intro h
    have h2 := congrArg (fun r => match r with | Go.ret (l, _) => l.isEmpty | Go.panic _ => true) h
    simp only [hugeContainer, List.isEmpty_cons, List.isEmpty_nil] at h2
    exact Bool.noConfusion h2

/-- C10 (amended): for every buffer of length at least 12 with the magic number and
version 3 whose header length `h` is at least `2 ^ 32 - 12`, `crx2zip` returns the nil
error and the suffix `buf[(12 + h) - 2 ^ 32 :]`; that start offset lies in `0..11`; and
`12 + h` exceeds the buffer length whenever the buffer is shorter than `2 ^ 32` bytes. -/
theorem crx2zip_offset_wraps (buf : List Byte) (hlen : 12 ≤ buf.length)
    (hmagic : buf.take 4 = [67, 114, 50, 52]) (hversion : (buf.drop 4).take 4 = [3, 0, 0, 0])
    (hh : 2 ^ 32 - 12 ≤ headerLength buf) :
    crx2zip buf = .ret (buf.drop (12 + headerLength buf - 2 ^ 32), none) ∧
    12 + headerLength buf - 2 ^ 32 ≤ 11 ∧
    (buf.length < 2 ^ 32 → buf.length < 12 + headerLength buf) := by
  obtain ⟨b0, b1, b2, b3, b4, b5, b6, b7, b8, b9, b10, b11, rest, rfl⟩ :=
    exists_cons12 buf hlen
  simp at hmagic hversion
  obtain ⟨rfl, rfl, rfl, rfl⟩ := hmagic
  obtain ⟨rfl, rfl, rfl, rfl⟩ := hversion
  rw [headerLength_cons12] at hh ⊢
  have hlt := leUint32_lt b8 b9 b10 b11
  have hmod : (12 + leUint32 b8 b9 b10 b11) % 2 ^ 32 = 12 + leUint32 b8 b9 b10 b11 - 2 ^ 32 := by
    omega
  refine ⟨?_, by omega, by omega⟩
  rw [crx2zip_of_header, hmod, if_pos (by omega)]

/-- C5: every buffer of at least 4 bytes whose first 4 bytes differ from `43 72 32 34`
makes `crx2zip` fail with the error "invalid header does not start with Cr24", whatever
follows. -/
theorem crx2zip_invalid_magic (buf : List Byte) (hlen : 4 ≤ buf.length)
    (hmagic : buf.take 4 ≠ [67, 114, 50, 52]) :
    crx2zip buf = .ret ([], some "invalid header does not start with Cr24") := by
  obtain ⟨b0, b1, b2, b3, rest, rfl⟩ := exists_cons4 buf hlen
  simp at hmagic
  by_cases h0 : b0 = 67 <;> by_cases h1 : b1 = 114 <;> by_cases h2 : b2 = 50 <;>
    by_cases h3 : b3 = 52 <;>
    simp_all [crx2zip, orElse, indexNe, index, bind, Go.bind, pure]

/-- C6: every buffer of at least 8 bytes that starts with the magic number and whose
bytes 4..7 are not `03 00 00 00` makes `crx2zip` fail with the error "unexpected crx
format version number", which is not the invalid-magic error, whatever follows. -/
theorem crx2zip_unexpected_version (buf : List Byte) (hlen : 8 ≤ buf.length)
    (hmagic : buf.take 4 = [67, 114, 50, 52]) (hversion : (buf.drop 4).take 4 ≠ [3, 0, 0, 0]) :
    crx2zip buf = .ret ([], some "unexpected crx format version number") ∧
    crx2zip buf ≠ .ret ([], some "invalid header does not start with Cr24") := by
  obtain ⟨b0, b1, b2, b3, b4, b5, b6, b7, rest, rfl⟩ := exists_cons8 buf hlen
  simp at hmagic hversion
  obtain ⟨rfl, rfl, rfl, rfl⟩ := hmagic
  have h : crx2zip (67 :: 114 :: 50 :: 52 :: b4 :: b5 :: b6 :: b7 :: rest)
      = .ret ([], some "unexpected crx format version number") := by
    by_cases h4 : b4 = 3 <;> by_cases h5 : b5 = 0 <;> by_cases h6 : b6 = 0 <;>
      by_cases h7 : b7 = 0 <;>
      simp_all [crx2zip, orElse, indexNe, index, bind, Go.bind, pure]
  rw [h]
  exact ⟨rfl, by decide⟩

/-- C4 (amended): for every buffer shorter than 8 bytes `crx2zip` returns no payload;
when the bytes present are not a prefix of `43 72 32 34` it fails with the invalid-magic
error, and when the first four are the magic number and the bytes after them are not a
prefix of `03 00 00 00` it fails with the unexpected-version error. -/
theorem crx2zip_short_buffer (buf : List Byte) (hlen : buf.length < 8) :
    (∀ payload, crx2zip buf ≠ .ret (payload, none)) ∧
    (¬ buf.take 4 <+: [67, 114, 50, 52] →
      crx2zip buf = .ret ([], some "invalid header does not start with Cr24")) ∧
    (buf.take 4 = [67, 114, 50, 52] → ¬ buf.drop 4 <+: [3, 0, 0, 0] →
      crx2zip buf = .ret ([], some "unexpected crx format version number")) := by
  match buf, hlen with
  | [], _ => simp [crx2zip, orElse, indexNe, index, bind, Go.bind, pure]
  | [b0], _ =>
    rcases eq_or_ne b0 67 with rfl | h0
    swap
    · simp_all [crx2zip, orElse, indexNe, index, bind, Go.bind, pure, List.prefix_cons_iff]
    simp_all [crx2zip, orElse, indexNe, index, bind, Go.bind, pure, List.prefix_cons_iff]
  | [b0, b1], _ =>
    rcases eq_or_ne b0 67 with rfl | h0
    swap
    · simp_all [crx2zip, orElse, indexNe, index, bind, Go.bind, pure, List.prefix_cons_iff]
    rcases eq_or_ne b1 114 with rfl | h1
    swap
    · simp_all [crx2zip, orElse, indexNe, index, bind, Go.bind, pure, List.prefix_cons_iff]
    simp_all [crx2zip, orElse, indexNe, index, bind, Go.bind, pure, List.prefix_cons_iff]
  | [b0, b1, b2], _ =>
    rcases eq_or_ne b0 67 with rfl | h0
    swap
    · simp_all [crx2zip, orElse, indexNe, index, bind, Go.bind, pure, List.prefix_cons_iff]
    rcases eq_or_ne b1 114 with rfl | h1
    swap
    · simp_all [crx2zip, orElse, indexNe, index, bind, Go.bind, pure, List.prefix_cons_iff]
    rcases eq_or_ne b2 50 with rfl | h2
    swap
    · simp_all [crx2zip, orElse, indexNe, index, bind, Go.bind, pure, List.prefix_cons_iff]
    simp_all [crx2zip, orElse, indexNe, index, bind, Go.bind, pure, List.prefix_cons_iff]
  | [b0, b1, b2, b3], _ =>
    rcases eq_or_ne b0 67 with rfl | h0
    swap
    · simp_all [crx2zip, orElse, indexNe, index, bind, Go.bind, pure, List.prefix_cons_iff]
    rcases eq_or_ne b1 114 with rfl | h1
    swap
    · simp_all [crx2zip, orElse, indexNe, index, bind, Go.bind, pure, List.prefix_cons_iff]
    rcases eq_or_ne b2 50 with rfl | h2
    swap
    · simp_all [crx2zip, orElse, indexNe, index, bind, Go.bind, pure, List.prefix_cons_iff]
    rcases eq_or_ne b3 52 with rfl | h3
    swap
    · simp_all [crx2zip, orElse, indexNe, index, bind, Go.bind, pure, List.prefix_cons_iff]
    simp_all [crx2zip, orElse, indexNe, index, bind, Go.bind, pure, List.prefix_cons_iff]
  | [b0, b1, b2, b3, b4], _ =>
    rcases eq_or_ne b0 67 with rfl | h0
    swap
    · simp_all [crx2zip, orElse, indexNe, index, bind, Go.bind, pure, List.prefix_cons_iff]
    rcases eq_or_ne b1 114 with rfl | h1
    swap
    · simp_all [crx2zip, orElse, indexNe, index, bind, Go.bind, pure, List.prefix_cons_iff]
    rcases eq_or_ne b2 50 with rfl | h2
    swap
    · simp_all [crx2zip, orElse, indexNe, index, bind, Go.bind, pure, List.prefix_cons_iff]
    rcases eq_or_ne b3 52 with rfl | h3
    swap
    · simp_all [crx2zip, orElse, indexNe, index, bind, Go.bind, pure, List.prefix_cons_iff]
    rcases eq_or_ne b4 3 with rfl | h4
    swap
    · simp_all [crx2zip, orElse, indexNe, index, bind, Go.bind, pure, List.prefix_cons_iff]
    simp_all [crx2zip, orElse, indexNe, index, bind, Go.bind, pure, List.prefix_cons_iff]
  | [b0, b1, b2, b3, b4, b5], _ =>
    rcases eq_or_ne b0 67 with rfl | h0
    swap
    · simp_all [crx2zip, orElse, indexNe, index, bind, Go.bind, pure, List.prefix_cons_iff]
    rcases eq_or_ne b1 114 with rfl | h1
    swap
    · simp_all [crx2zip, orElse, indexNe, index, bind, Go.bind, pure, List.prefix_cons_iff]
    rcases eq_or_ne b2 50 with rfl | h2
    swap
    · simp_all [crx2zip, orElse, indexNe, index, bind, Go.bind, pure, List.prefix_cons_iff]
    rcases eq_or_ne b3 52 with rfl | h3
    swap
    · simp_all [crx2zip, orElse, indexNe, index, bind, Go.bind, pure, List.prefix_cons_iff]
    rcases eq_or_ne b4 3 with rfl | h4
    swap
    · simp_all [crx2zip, orElse, indexNe, index, bind, Go.bind, pure, List.prefix_cons_iff]
    rcases eq_or_ne b5 0 with rfl | h5
    swap
    · simp_all [crx2zip, orElse, indexNe, index, bind, Go.bind, pure, List.prefix_cons_iff]
    simp_all [crx2zip, orElse, indexNe, index, bind, Go.bind, pure, List.prefix_cons_iff]
  | [b0, b1, b2, b3, b4, b5, b6], _ =>
    rcases eq_or_ne b0 67 with rfl | h0
    swap
    · simp_all [crx2zip, orElse, indexNe, index, bind, Go.bind, pure, List.prefix_cons_iff]
    rcases eq_or_ne b1 114 with rfl | h1
    swap
    · simp_all [crx2zip, orElse, indexNe, index, bind, Go.bind, pure, List.prefix_cons_iff]
    rcases eq_or_ne b2 50 with rfl | h2
    swap
    · simp_all [crx2zip, orElse, indexNe, index, bind, Go.bind, pure, List.prefix_cons_iff]
    rcases eq_or_ne b3 52 with rfl | h3
    swap
    · simp_all [crx2zip, orElse, indexNe, index, bind, Go.bind, pure, List.prefix_cons_iff]
    rcases eq_or_ne b4 3 with rfl | h4
    swap
    · simp_all [crx2zip, orElse, indexNe, index, bind, Go.bind, pure, List.prefix_cons_iff]
    rcases eq_or_ne b5 0 with rfl | h5
    swap
    · simp_all [crx2zip, orElse, indexNe, index, bind, Go.bind, pure, List.prefix_cons_iff]
    rcases eq_or_ne b6 0 with rfl | h6
    swap
    · simp_all [crx2zip, orElse, indexNe, index, bind, Go.bind, pure, List.prefix_cons_iff]
    simp_all [crx2zip, orElse, indexNe, index, bind, Go.bind, pure, List.prefix_cons_iff]

/-! ## The identifier pattern -/

theorem inClass_reExtendionID (c : Char) :
    reExtendionID.inClass c = true ↔ 'a' ≤ c ∧ c ≤ 'z' := by
  simp [Regexp.inClass, reExtendionID]

theorem matchPrefix_eq_some (s m : List Char) (h : reExtendionID.matchPrefix s = some m) :
    IsRun m ∧ s = m ++ s.drop 32 := by
  unfold Regexp.matchPrefix at h
  split at h
  · rename_i hc
    injection h with h
    subst h
    refine ⟨⟨hc.1, ?_⟩, (List.take_append_drop 32 s).symm⟩
    intro c hcm
    exact (inClass_reExtendionID c).1 (List.all_eq_true.1 hc.2 c hcm)
  · exact absurd h (by simp)

theorem matchPrefix_eq_none (s : List Char) (h : reExtendionID.matchPrefix s = none)
    (run after : List Char) (hs : s = run ++ after) : ¬ IsRun run := by
  intro hrun
  unfold Regexp.matchPrefix at h
  have htake : s.take 32 = run := by
    rw [hs, List.take_append_of_le_length (by rw [hrun.1]), ← hrun.1, List.take_length]
  have hcount : reExtendionID.count = 32 := rfl
  rw [hcount, htake] at h
  rw [if_pos] at h
  · exact absurd h (by simp)
  · refine ⟨hrun.1, List.all_eq_true.2 ?_⟩
    intro c hc
    exact (inClass_reExtendionID c).2 (hrun.2 c hc)

theorem find_eq_some (s m : List Char) (h : reExtendionID.find s = some m) :
    IsLeftmostRun s m := by
  induction s with
  | nil =>
    have := (matchPrefix_eq_some [] m h).1.1
    have h2 := (matchPrefix_eq_some [] m h).2
    simp at h2
    rw [h2] at this
    simp at this
  | cons c cs ih =>
    unfold Regexp.find at h
    split at h
    · rename_i m2 hm
      injection h with h
      subst h
      obtain ⟨hrun, hs⟩ := matchPrefix_eq_some _ _ hm
      exact ⟨[], (c :: cs).drop 32, by simpa using hs, hrun, fun _ _ _ _ _ => Nat.zero_le _⟩
    · rename_i hm
      obtain ⟨before, after, hs, hrun, hleft⟩ := ih h
      refine ⟨c :: before, after, by simp [hs], hrun, ?_⟩
      intro before2 run2 after2 hs2 hrun2
      cases before2 with
      | nil => exact absurd hrun2 (matchPrefix_eq_none _ hm run2 after2 (by simpa using hs2))
      | cons d before3 =>
        simp at hs2
        have := hleft before3 run2 after2 (by simp [hs2.2]) hrun2
        simp
        omega

theorem find_eq_none (s : List Char) (h : reExtendionID.find s = none) : ¬ HasRun s := by
  induction s with
  | nil =>
    rintro ⟨before, run, after, hs, hrun⟩
    have h1 : before = [] := by
      cases before with
      | nil => rfl
      | cons _ _ => simp at hs
    subst h1
    exact matchPrefix_eq_none [] h run after (by simpa using hs) hrun
  | cons c cs ih =>
    unfold Regexp.find at h
    split at h
    · exact absurd h (by simp)
    · rename_i hm
      rintro ⟨before, run, after, hs, hrun⟩
      cases before with
      | nil => exact matchPrefix_eq_none _ hm run after (by simpa using hs) hrun
      | cons d before3 =>
        simp at hs
        exact ih h ⟨before3, run, after, by simp [hs.2], hrun⟩

theorem hasRun_of_leftmost (s m : List Char) (h : IsLeftmostRun s m) : HasRun s := by
  obtain ⟨before, after, hs, hrun, _⟩ := h
  exact ⟨before, m, after, hs, hrun⟩

theorem FindStringSubmatch_of_not_hasRun (ext : String) (h : ¬ HasRun ext.data) :
    reExtendionID.FindStringSubmatch ext = [] := by
  unfold Regexp.FindStringSubmatch
  cases hf : reExtendionID.find ext.data with
  | none => rfl
  | some m => exact absurd (hasRun_of_leftmost _ _ (find_eq_some _ _ hf)) h

theorem FindStringSubmatch_of_hasRun (ext : String) (h : HasRun ext.data) :
    ∃ id : String, reExtendionID.FindStringSubmatch ext = [id] ∧
      IsLeftmostRun ext.data id.data := by
  unfold Regexp.FindStringSubmatch
  cases hf : reExtendionID.find ext.data with
  | none => exact absurd h (find_eq_none _ hf)
  | some m => exact ⟨String.mk m, rfl, find_eq_some _ _ hf⟩

/-! ## The driver -/

set_option maxRecDepth 100000 in
theorem downloadURL_eq (extensionID : String) :
    downloadURL extensionID =
      "https://clients2.google.com/service/update2/crx?response=redirect&os=win&arch=x86-64&nacl_arch=x86-64&prod=chromiumcrx&prodchannel=unknown&prodversion=9999.0.9999.0&acceptformat=crx2,crx3&x=id%3D"
        ++ extensionID ++ "%26uc" := by
  apply String.ext
  simp [downloadURL, chromeWebStoreURL, String.data_append]

theorem createDownloadURL_skip (net : Network) (Destination ext : String)
    (extensionList : List String) (n : Nat) (h : ¬ HasRun ext.data) :
    createDownloadURL net Destination (ext :: extensionList) n =
      andThen [.log ("Processing " ++ ext ++ "\n")]
        (createDownloadURL net Destination extensionList n) := by
  rw [createDownloadURL, FindStringSubmatch_of_not_hasRun ext h]

/-! ## Claims about `crx2zip`: concrete inputs -/

/-- The two scenarios of the specification: a zero-length header followed by
`50 4B 03 04`, and a 4-byte header followed by `AA BB`. -/
theorem crx2zip_payload_scenarios :
    crx2zip [67, 114, 50, 52, 3, 0, 0, 0, 0, 0, 0, 0, 80, 75, 3, 4]
      = .ret ([80, 75, 3, 4], none) ∧
    crx2zip [67, 114, 50, 52, 3, 0, 0, 0, 4, 0, 0, 0, 1, 2, 3, 4, 170, 187]
      = .ret ([170, 187], none) :=
  ⟨crx2zip_payload [67, 114, 50, 52, 3, 0, 0, 0, 0, 0, 0, 0, 80, 75, 3, 4]
      (by decide) (by decide) (by decide) (by decide),
    crx2zip_payload [67, 114, 50, 52, 3, 0, 0, 0, 4, 0, 0, 0, 1, 2, 3, 4, 170, 187]
      (by decide) (by decide) (by decide) (by decide)⟩

/-- C2, failing input: magic number, version 3, header length 4 and nothing after the
12-byte prefix, so `12 + h = 16 > 12 = len`.  `crx2zip` panics on the slice expression
and returns no error value. -/
theorem crx2zip_overrun_panics :
    12 + headerLength [67, 114, 50, 52, 3, 0, 0, 0, 4, 0, 0, 0]
      > ([67, 114, 50, 52, 3, 0, 0, 0, 4, 0, 0, 0] : List Byte).length ∧
    crx2zip [67, 114, 50, 52, 3, 0, 0, 0, 4, 0, 0, 0] = .panic .sliceBoundsOutOfRange ∧
    ¬ IsTruncatedInput (crx2zip [67, 114, 50, 52, 3, 0, 0, 0, 4, 0, 0, 0]) := by
  refine ⟨by decide, by decide, ?_⟩
  rintro ⟨msg, h, _⟩
  have h2 : crx2zip [67, 114, 50, 52, 3, 0, 0, 0, 4, 0, 0, 0] = .panic .sliceBoundsOutOfRange := by
    decide
  rw [h2] at h
  exact Go.noConfusion h

/-- C3, failing inputs: `crx2zip` panics on the empty buffer (`buf[0]`), on a buffer that
ends inside the magic number (`buf[1]`), on an 8-byte buffer (the length field cannot be
read) and on a buffer whose header length overruns it (`buf[zipStartOffset:]`). -/
theorem crx2zip_panics :
    crx2zip [] = .panic .indexOutOfRange ∧
    crx2zip [67] = .panic .indexOutOfRange ∧
    crx2zip [67, 114, 50, 52, 3, 0, 0, 0] = .panic .indexOutOfRange ∧
    crx2zip [67, 114, 50, 52, 3, 0, 0, 0, 4, 0, 0, 0] = .panic .sliceBoundsOutOfRange := by
  decide

/-- C4, counterexample: the 4-byte buffer `00 00 00 00` is shorter than 8 bytes and fails
with the invalid-magic error, not with a `TruncatedInput` error. -/
theorem crx2zip_short_buffer_not_truncatedInput :
    ([0, 0, 0, 0] : List Byte).length < 8 ∧
    crx2zip [0, 0, 0, 0] = .ret ([], some "invalid header does not start with Cr24") ∧
    ¬ IsTruncatedInput (crx2zip [0, 0, 0, 0]) := by
  refine ⟨by decide, by decide, ?_⟩
  rintro ⟨msg, h, hne, _⟩
  have h2 : crx2zip [0, 0, 0, 0] = .ret ([], some "invalid header does not start with Cr24") := by
    decide
  rw [h2] at h
  injection h with h
  injection h with _ h
  injection h with h
  exact hne h.symm

/-- C4, witness of the amended claim at `00 00 00 00` and at `43 72 32 34 02`. -/
theorem crx2zip_short_buffer_witness :
    crx2zip [0, 0, 0, 0] = .ret ([], some "invalid header does not start with Cr24") ∧
    crx2zip [67, 114, 50, 52, 2] = .ret ([], some "unexpected crx format version number") :=
  ⟨(crx2zip_short_buffer [0, 0, 0, 0] (by decide)).2.1 (by decide),
    (crx2zip_short_buffer [67, 114, 50, 52, 2] (by decide)).2.2 (by decide) (by decide)⟩

/-- C5, witness: the first scenario of the specification with its magic bytes replaced
by `00 00 00 00`. -/
theorem crx2zip_invalid_magic_witness :
    crx2zip [0, 0, 0, 0, 3, 0, 0, 0, 0, 0, 0, 0, 80, 75, 3, 4]
      = .ret ([], some "invalid header does not start with Cr24") :=
  crx2zip_invalid_magic [0, 0, 0, 0, 3, 0, 0, 0, 0, 0, 0, 0, 80, 75, 3, 4]
    (by decide) (by decide)

/-- C6, witness: a container that declares format version 2. -/
theorem crx2zip_unexpected_version_witness :
    crx2zip [67, 114, 50, 52, 2, 0, 0, 0, 0, 0, 0, 0, 80, 75, 3, 4]
      = .ret ([], some "unexpected crx format version number") :=
  (crx2zip_unexpected_version [67, 114, 50, 52, 2, 0, 0, 0, 0, 0, 0, 0, 80, 75, 3, 4]
    (by decide) (by decide) (by decide)).1

/-- C10, counterexample: `hugeContainer` meets the conditions of the claim, with header
length `2 ^ 32 - 12`, but `12 + h` equals its length and does not exceed it. -/
theorem offset_wrap_within_hugeContainer :
    12 ≤ hugeContainer.length ∧ hugeContainer.take 4 = [67, 114, 50, 52] ∧
    (hugeContainer.drop 4).take 4 = [3, 0, 0, 0] ∧
    2 ^ 32 - 12 ≤ headerLength hugeContainer ∧
    ¬ hugeContainer.length < 12 + headerLength hugeContainer := by
  rw [headerLength_hugeContainer, length_hugeContainer]
  exact ⟨by omega, rfl, rfl, by omega, by omega⟩

/-- C10, witness: header length `FF FF FF FF`; the offset wraps to 11 and the returned
slice starts with the last byte of the length field. -/
theorem crx2zip_offset_wraps_witness :
    crx2zip [67, 114, 50, 52, 3, 0, 0, 0, 255, 255, 255, 255, 9] = .ret ([255, 9], none) :=
  (crx2zip_offset_wraps [67, 114, 50, 52, 3, 0, 0, 0, 255, 255, 255, 255, 9]
    (by decide) (by decide) (by decide) (by decide)).1

/-! ## Claims about the driver -/

/-- What `main` does never depends on what is typed on standard input. -/
theorem main_ignores_stdin (osArgs : List String) (GlobalArguments : GlobalArgumentsBody)
    (stdin1 stdin2 : List String) (net : Network) :
    main osArgs GlobalArguments stdin1 net = main osArgs GlobalArguments stdin2 net := rfl

/-- C7: an input string that contains no run of 32 consecutive letters `a` to `z` is
skipped: only its log line is produced, nothing is requested or written, and the rest of
the list is processed with the same request count.  Otherwise the extension ID is the
leftmost such run, a substring of the input of length exactly 32 made of letters `a` to
`z`; the request goes to the store URL ending in `&x=id%3D<ID>%26uc`, and the files
written are `<Destination>/<ID>.crx` and `<Destination>/<ID>.zip`. -/
theorem createDownloadURL_validates_identifier (net : Network) (Destination ext : String)
    (extensionList : List String) (n : Nat) :
    ((¬ ∃ before run after, ext.data = before ++ run ++ after ∧ run.length = 32 ∧
          ∀ c ∈ run, 'a' ≤ c ∧ c ≤ 'z') →
      createDownloadURL net Destination (ext :: extensionList) n =
        (.log ("Processing " ++ ext ++ "\n") ::
            (createDownloadURL net Destination extensionList n).1,
          (createDownloadURL net Destination extensionList n).2)) ∧
    ((∃ before run after, ext.data = before ++ run ++ after ∧ run.length = 32 ∧
          ∀ c ∈ run, 'a' ≤ c ∧ c ≤ 'z') →
      ∃ (id url : String) (before after : List Char),
        ext.data = before ++ id.data ++ after ∧ id.data.length = 32 ∧
        (∀ c ∈ id.data, 'a' ≤ c ∧ c ≤ 'z') ∧
        (∀ before2 run2 after2, ext.data = before2 ++ run2 ++ after2 → run2.length = 32 →
          (∀ c ∈ run2, 'a' ≤ c ∧ c ≤ 'z') → before.length ≤ before2.length) ∧
        url = "https://clients2.google.com/service/update2/crx?response=redirect&os=win&arch=x86-64&nacl_arch=x86-64&prod=chromiumcrx&prodchannel=unknown&prodversion=9999.0.9999.0&acceptformat=crx2,crx3&x=id%3D"
          ++ id ++ "%26uc" ∧
        match downloadFile (net n url) with
        | (_, some _) =>
          createDownloadURL net Destination (ext :: extensionList) n =
            (.log ("Processing " ++ ext ++ "\n") :: .httpGet url ::
                (createDownloadURL net Destination extensionList (n + 1)).1,
              (createDownloadURL net Destination extensionList (n + 1)).2)
        | (b, none) =>
          match crx2zip b with
          | .panic p =>
            createDownloadURL net Destination (ext :: extensionList) n =
              ([.log ("Processing " ++ ext ++ "\n"), .httpGet url,
                  .writeFile (Destination ++ "/" ++ id ++ ".crx") b], some p)
          | .ret (_, some _) =>
            createDownloadURL net Destination (ext :: extensionList) n =
              (.log ("Processing " ++ ext ++ "\n") :: .httpGet url ::
                  .writeFile (Destination ++ "/" ++ id ++ ".crx") b ::
                  (createDownloadURL net Destination extensionList (n + 1)).1,
                (createDownloadURL net Destination extensionList (n + 1)).2)
          | .ret (zipBytes, none) =>
            createDownloadURL net Destination (ext :: extensionList) n =
              (.log ("Processing " ++ ext ++ "\n") :: .httpGet url ::
                  .writeFile (Destination ++ "/" ++ id ++ ".crx") b ::
                  .writeFile (Destination ++ "/" ++ id ++ ".zip") zipBytes ::
                  (createDownloadURL net Destination extensionList (n + 1)).1,
                (createDownloadURL net Destination extensionList (n + 1)).2)) := by
  refine ⟨fun h => ?_, fun h => ?_⟩
  · rw [createDownloadURL_skip net Destination ext extensionList n h]
    rfl
  · obtain ⟨id, hfind, before, after, hs, hrun, hleft⟩ := FindStringSubmatch_of_hasRun ext h
    refine ⟨id, downloadURL id, before, after, hs, hrun.1, hrun.2,
      fun before2 run2 after2 hs2 hl hc => hleft before2 run2 after2 hs2 ⟨hl, hc⟩,
      downloadURL_eq id, ?_⟩
    rw [createDownloadURL, hfind]
    rcases hd : downloadFile (net n (downloadURL id)) with ⟨b, _ | e⟩
    · rcases hz : crx2zip b with ⟨zipBytes, _ | e2⟩ | p <;> simp [hd, hz, andThen]
    · simp [hd, andThen]

set_option maxRecDepth 100000 in
/-- C8, failing input: the program is started without arguments, so `GlobalArguments.Id`
is empty, and one identifier is typed on standard input, followed by an empty line.
`readInput` returns that identifier, but `main` drops the result: only the prompt is
printed and nothing is requested. -/
theorem main_drops_readInput :
    (readInput ["abcdefghijklmnopabcdefghijklmnop", ""]).2
      = ["abcdefghijklmnopabcdefghijklmnop"] ∧
    main ["edge-extension-downloader"] ⟨[], ""⟩ ["abcdefghijklmnopabcdefghijklmnop", ""] okNet
      = ((readInput ["abcdefghijklmnopabcdefghijklmnop", ""]).1, none) ∧
    createDownloadURL okNet "" ["abcdefghijklmnopabcdefghijklmnop"] 0
      ≠ ((readInput ["abcdefghijklmnopabcdefghijklmnop", ""]).1, none) := by
  decide

set_option maxRecDepth 100000 in
/-- C9, failing input: two valid identifiers, and a network that answers the first
request with status 200 and an empty body.  `crx2zip` panics on the empty buffer, the run
ends after the first `.crx` file is written, and the second identifier is never
processed. -/
theorem createDownloadURL_stops_on_panic :
    createDownloadURL emptyBodyNet "out"
        ["aaaaaaaaaaaaaaaaaaaaaaaaaaaaaaaa", "bbbbbbbbbbbbbbbbbbbbbbbbbbbbbbbb"] 0
      = ([.log "Processing aaaaaaaaaaaaaaaaaaaaaaaaaaaaaaaa\n",
          .httpGet (downloadURL "aaaaaaaaaaaaaaaaaaaaaaaaaaaaaaaa"),
          .writeFile "out/aaaaaaaaaaaaaaaaaaaaaaaaaaaaaaaa.crx" []],
        some .indexOutOfRange) := by
  decide

end EdgeExtensionDownloader
